import Mathlib

/-!
Verification development for the SG-Bookkeeper UI corpus.

The Python source operates on `decimal.Decimal` values that (in the code
paths modelled here) are always exact finite decimals, so amounts are
embedded as rationals (`ℚ`).  Each definition below is a direct shallow
embedding of the corresponding function in the repository:

* `app/ui/accounting/journal_entry_dialog.py`:
  `_recalculate_tax_for_line`, `_calculate_totals`, `_collect_data`,
  `on_save_draft`, and the debit/credit mutual-exclusion wiring made
  in `_add_new_line`.
* `app/ui/accounting/journal_entries_widget.py`:
  `_update_action_states`, `on_post_entry`, `on_reverse_entry`,
  `_perform_post_entries`.
* `app/ui/dashboard/dashboard_widget.py`:
  `_format_decimal_for_display`, `_format_ratio_for_display`.
* `AccountTypeService` (exercised by
  `tests/unit/services/test_account_type_service.py`), whose
  implementation is not part of the corpus and is therefore modelled
  from the specification text.
-/

set_option autoImplicit false

/-- Python `Decimal.quantize(Decimal("0.01"))` uses `ROUND_HALF_EVEN`.
`roundHalfEven x` is the integer nearest `x`, ties going to the even
integer. -/
def roundHalfEven (x : ℚ) : ℤ :=
  let f : ℤ := ⌊x⌋
  let r : ℚ := x - f
  if r < 1/2 then f
  else if 1/2 < r then f + 1
  else if Even f then f else f + 1

/-- Embedding of `Decimal.quantize(Decimal("0.01"))`: round to two decimal places,
half-even. -/
def quantize2 (x : ℚ) : ℚ :=
  (roundHalfEven (x * 100) : ℚ) / 100

/-- One record of the `_tax_codes_cache` (ORM `TaxCode`): the fields
read by `_recalculate_tax_for_line`. -/
structure TaxCode where
  code : String
  rate : Option ℚ
  tax_type : String
deriving DecidableEq, Repr

/-- Embedding of `JournalEntryDialog._recalculate_tax_for_line`.

`debit`/`credit` are the two spin-box values of the row, `taxSel` the
tax combo's current data when a real tax code is selected
(`currentIndex() > 0` and truthy data), `cache` is
`self._tax_codes_cache`.  Returns the recomputed tax amount shown in
column 5. -/
def recalculate_tax_for_line (debit credit : ℚ) (taxSel : Option String)
    (cache : List TaxCode) : ℚ :=
  let base : ℚ := if debit > 0 then debit else credit
  match taxSel with
  | none => 0
  | some code =>
    if base = 0 then 0
    else
      match cache.find? (fun tc => tc.code == code) with
      | none => 0
      | some tc =>
        if tc.tax_type = "GST" then
          match tc.rate with
          | some r => quantize2 (base * (r / 100))
          | none => 0
        else 0

/-- One row of the lines table, as read by `_calculate_totals` and
`_collect_data`: account combo data, description item, debit/credit
spin values, tax combo data (`none` for the "None" item), and the
numeric value of the read-only tax amount item. -/
structure LineRow where
  accountId : Option ℤ
  description : String
  debit : ℚ
  credit : ℚ
  tax_code : Option String
  tax_amount : ℚ
deriving DecidableEq, Repr

/-- Total of the debit spin boxes over all rows, as summed by
`_calculate_totals` and `_collect_data`. -/
def rowsDebitTotal (rows : List LineRow) : ℚ :=
  (rows.map LineRow.debit).sum

/-- Total of the credit spin boxes over all rows. -/
def rowsCreditTotal (rows : List LineRow) : ℚ :=
  (rows.map LineRow.credit).sum

/-- The balance label set by `_calculate_totals`: either the literal
"Balance: OK" text or the signed difference rendered in red. -/
inductive BalanceLabel where
  | ok
  | diff (d : ℚ)
deriving DecidableEq, Repr

/-- The three labels updated by `JournalEntryDialog._calculate_totals`. -/
structure TotalsReport where
  debits : ℚ
  credits : ℚ
  balance : BalanceLabel
deriving DecidableEq, Repr

/-- Embedding of `JournalEntryDialog._calculate_totals`. -/
def calculate_totals (rows : List LineRow) : TotalsReport :=
  let total_debits := rowsDebitTotal rows
  let total_credits := rowsCreditTotal rows
  { debits := total_debits
    credits := total_credits
    balance :=
      if |total_debits - total_credits| < 5/1000 then BalanceLabel.ok
      else BalanceLabel.diff (total_debits - total_credits) }

/-- Pydantic DTO `JournalEntryLineData` as filled in by `_collect_data`
(`currency_code="SGD"`, `exchange_rate=1`, dimensions omitted). -/
structure JournalEntryLineData where
  account_id : ℤ
  description : String
  debit_amount : ℚ
  credit_amount : ℚ
  tax_code : Option String
  tax_amount : ℚ
  currency_code : String
  exchange_rate : ℚ
deriving DecidableEq, Repr

/-- The line DTO `_collect_data` builds from a row whose account combo
carries `acc`. -/
def line_dto (r : LineRow) (acc : ℤ) : JournalEntryLineData :=
  { account_id := acc
    description := r.description
    debit_amount := r.debit
    credit_amount := r.credit
    tax_code := r.tax_code
    tax_amount := r.tax_amount
    currency_code := "SGD"
    exchange_rate := 1 }

/-- The row loop of `_collect_data`: walks the table rows, aborting
(`return None`) on a row that has amounts but no selected account,
skipping (`continue`) a row with no account and no amounts, and
otherwise accumulating the line DTO and the running debit/credit
totals. -/
def collect_lines : List LineRow → Option (List JournalEntryLineData × ℚ × ℚ)
  | [] => some ([], 0, 0)
  | r :: rest =>
    match r.accountId with
    | none =>
      if r.debit = 0 ∧ r.credit = 0 then collect_lines rest else none
    | some acc =>
      match collect_lines rest with
      | none => none
      | some p => some (line_dto r acc :: p.1, r.debit + p.2.1, r.credit + p.2.2)

/-- Sum of `debit_amount` over collected line DTOs. -/
def sum_debits (ls : List JournalEntryLineData) : ℚ :=
  (ls.map JournalEntryLineData.debit_amount).sum

/-- Sum of `credit_amount` over collected line DTOs. -/
def sum_credits (ls : List JournalEntryLineData) : ℚ :=
  (ls.map JournalEntryLineData.credit_amount).sum

/-- Modelled from the spec: the pydantic validation run by the
`JournalEntryData(...)` constructor (file `app/utils/pydantic_models.py`
is not part of the corpus).  Spec §3: "Invariant: sum(debit) ==
sum(credit) within 0.01 tolerance; at least one line with a non-zero
amount and valid account."  A `False` result corresponds to the
constructor raising `ValueError`, which `_collect_data` turns into
`return None`. -/
def journal_entry_data_ok (ls : List JournalEntryLineData) : Bool :=
  (if |sum_debits ls - sum_credits ls| ≤ (1/100 : ℚ) then true else false)
    && ls.any (fun l => l.debit_amount != 0 || l.credit_amount != 0)

/-- The header fields `_collect_data` reads from the dialog widgets and
from the loaded ORM entry. -/
structure EntryHeader where
  journal_type : String
  entry_date : ℤ
  description : Option String
  reference : Option String
  user_id : ℤ
  source_type : Option String
  source_id : Option ℤ
deriving DecidableEq, Repr

/-- Pydantic DTO `JournalEntryData` as built by `_collect_data`. -/
structure JournalEntryData where
  journal_type : String
  entry_date : ℤ
  description : Option String
  reference : Option String
  user_id : ℤ
  lines : List JournalEntryLineData
  source_type : Option String
  source_id : Option ℤ
deriving DecidableEq, Repr

/-- Embedding of `JournalEntryDialog._collect_data`.  Returns `none`
exactly when the Python function returns `None` (validation warning
shown, no DTO produced). -/
def collect_data (hd : EntryHeader) (rows : List LineRow) : Option JournalEntryData :=
  match collect_lines rows with
  | none => none
  | some (ls, total_debits, total_credits) =>
    if ls.isEmpty then none
    else if |total_debits - total_credits| > 1/100 then none
    else if journal_entry_data_ok ls then
      some { journal_type := hd.journal_type
             entry_date := hd.entry_date
             description := hd.description
             reference := hd.reference
             user_id := hd.user_id
             lines := ls
             source_type := hd.source_type
             source_id := hd.source_id }
    else none

/-- A call scheduled on the journal-entry manager by `_perform_save`. -/
inductive ManagerCall where
  | create (e : JournalEntryData)
  | update (i : ℤ) (e : JournalEntryData)
deriving DecidableEq, Repr

/-- Embedding of `JournalEntryDialog.on_save_draft` for a new entry:
collect the data and, only if collection succeeded, schedule the
manager call (`_perform_save`, which calls `create_journal_entry`). -/
def on_save_draft (hd : EntryHeader) (rows : List LineRow) : Option ManagerCall :=
  (collect_data hd rows).map ManagerCall.create

/-- The debit/credit pair of one row's spin boxes. -/
structure LineAmounts where
  debit : ℚ
  credit : ℚ
deriving DecidableEq, Repr

/-- A value that a `QDoubleSpinBox` with two decimals and range
`[0, 999999999999.99]` can hold: non-negative and a whole number of
cents. -/
def SpinRepresentable (v : ℚ) : Prop :=
  0 ≤ v ∧ ∃ n : ℕ, v = (n : ℚ) / 100

/-- Embedding of editing the debit spin box of a row.  `_add_new_line`
connects `debit_spin.valueChanged` to
`cs.setValue(0.00) if val > 0.001 else None`, so a new debit value
above `0.001` zeroes the credit box. -/
def set_debit (l : LineAmounts) (v : ℚ) : LineAmounts :=
  { debit := v
    credit := if v > 1/1000 then 0 else l.credit }

/-- Embedding of editing the credit spin box of a row (symmetric
connection made in `_add_new_line`). -/
def set_credit (l : LineAmounts) (v : ℚ) : LineAmounts :=
  { debit := if v > 1/1000 then 0 else l.debit
    credit := v }

/-- The invariant stated by the spec: at most one of debit/credit is
non-zero on a line. -/
def atMostOneNonzero (l : LineAmounts) : Prop :=
  l.debit = 0 ∨ l.credit = 0

/-- One selected row of the journal entries table, as read through
`table_model.get_journal_entry_id_at_row` and
`get_journal_entry_status_at_row`. -/
structure EntryRow where
  id : Option ℤ
  status : Option String
deriving DecidableEq, Repr

/-- The enabled/disabled states set by
`JournalEntriesWidget._update_action_states` from the current row
selection. -/
structure ActionStates where
  edit_enabled : Bool
  view_enabled : Bool
  post_enabled : Bool
  reverse_enabled : Bool
deriving DecidableEq, Repr

/-- Embedding of `JournalEntriesWidget._update_action_states`. -/
def update_action_states (sel : List EntryRow) : ActionStates :=
  let has_selection : Bool := !sel.isEmpty
  let single_selection : Bool := sel.length == 1
  let is_draft : Bool :=
    single_selection &&
      (match sel.head? with
       | some r => r.status == some "Draft"
       | none => false)
  let is_posted : Bool :=
    single_selection &&
      (match sel.head? with
       | some r => r.status == some "Posted"
       | none => false)
  let can_post_any_draft : Bool :=
    has_selection && sel.any (fun r => r.status == some "Draft")
  { edit_enabled := single_selection && is_draft
    view_enabled := single_selection
    post_enabled := can_post_any_draft
    reverse_enabled := single_selection && is_posted }

/-- Embedding of `JournalEntriesWidget.on_post_entry`: from the selected
rows, collect the ids submitted to `_perform_post_entries`.  `none`
means the handler returned without scheduling the background task
(empty selection, or no draft rows among the selection).  The Python
guard is `if entry_id and entry_status == "Draft"`, so a falsy id
(`None` or `0`) is skipped. -/
def on_post_entry (sel : List EntryRow) : Option (List ℤ) :=
  if sel.isEmpty then none
  else
    let ids := sel.filterMap (fun r =>
      if r.id ≠ none ∧ r.id ≠ some 0 ∧ r.status = some "Draft" then r.id
      else none)
    if ids.isEmpty then none else some ids

/-- Embedding of `_get_selected_entry_id_and_status` with
`require_single_selection=True`: yields the id and status of the
single selected row, `(none, none)` otherwise. -/
def get_selected_entry_id_and_status (sel : List EntryRow) :
    Option ℤ × Option String :=
  match sel with
  | [r] => (r.id, r.status)
  | _ => (none, none)

/-- Embedding of `JournalEntriesWidget.on_reverse_entry` up to the
point where the reversal task is scheduled: `some i` means entry `i`
is submitted to `_perform_reverse_entry` (assuming the user confirms
the dialogs); `none` means the handler bailed out
(`if entry_id is None or entry_status != "Posted": return`). -/
def on_reverse_entry (sel : List EntryRow) : Option ℤ :=
  let p := get_selected_entry_id_and_status sel
  if p.1 = none ∨ p.2 ≠ some "Posted" then none else p.1

/-- Completion report built by
`JournalEntriesWidget._perform_post_entries`: the message
`f"{success_count} of {len(entry_ids)} entries posted."` together with
the per-item error block, and whether the result dialog is the
`information` (success) variant
(`QMessageBox.information if not errors and success_count > 0`). -/
structure PostReport where
  success_count : ℕ
  total : ℕ
  error_lines : List String
  is_success_dialog : Bool
deriving DecidableEq, Repr

/-- The posting loop of `_perform_post_entries`: `post i` is the
outcome of `manager.post_journal_entry(i, user_id).is_success`;
`errMsg i` is the error line appended for a failed entry (its exact
text carries manager-provided detail).  Returns the success count and
the error lines, in loop order. -/
def post_loop (post : ℤ → Bool) (errMsg : ℤ → String) :
    List ℤ → ℕ × List String
  | [] => (0, [])
  | i :: rest =>
    let p := post_loop post errMsg rest
    if post i then (p.1 + 1, p.2) else (p.1, errMsg i :: p.2)

/-- Embedding of `JournalEntriesWidget._perform_post_entries`. -/
def perform_post_entries (post : ℤ → Bool) (errMsg : ℤ → String)
    (entry_ids : List ℤ) : PostReport :=
  let p := post_loop post errMsg entry_ids
  { success_count := p.1
    total := entry_ids.length
    error_lines := p.2
    is_success_dialog := p.2.isEmpty && decide (0 < p.1) }

/-- ORM `AccountType` record fields, as constructed in the unit tests. -/
structure AccountType where
  id : ℤ
  name : String
  category : String
  is_debit_balance : Bool
  report_type : String
  display_order : ℤ
deriving DecidableEq, Repr

namespace AccountTypeService

/-- Modelled from the spec: `session.get(AccountType, id)` — the lookup
into the relational store behind `AccountTypeService`
(`app/services/accounting_services.py` is not part of the corpus; the
spec describes the gateway as "a direct pass-through to a relational
store").  The store is a list of records keyed by `id`. -/
def get_by_id (store : List AccountType) (i : ℤ) : Option AccountType :=
  store.find? (fun a => a.id == i)

/-- Modelled from the spec: `AccountTypeService.delete(id) → bool`
(spec §6/§8: "delete(id) returns true and removes the record when it
exists; returns false and performs no deletion when it does not").
The service fetches the record by id and, if found, deletes that
record (`session.delete`) and returns `True`; otherwise it returns
`False` without touching the store.  Result is (returned bool,
resulting store). -/
def delete (store : List AccountType) (i : ℤ) : Bool × List AccountType :=
  match get_by_id store i with
  | some _ => (true, store.eraseP (fun a => a.id == i))
  | none => (false, store)

end AccountTypeService

/-- A `decimal.Decimal` as consumed by the dashboard formatters: a
finite value, a signed infinity, or NaN (`is_finite()` is false for
the latter two). -/
inductive PyDecimal where
  | fin (q : ℚ)
  | inf (neg : Bool)
  | nan
deriving DecidableEq, Repr

/-- Embedding of `is_finite()` on the embedded decimal. -/
def PyDecimal.is_finite : PyDecimal → Bool
  | .fin _ => true
  | _ => false

/-- Big-endian decimal digits of `n` with a thousands separator,
working on the reversed (little-endian) digit list: after every three
digits a comma is inserted if more digits follow. -/
def commaRev : List Char → List Char
  | a :: b :: c :: d :: rest => a :: b :: c :: ',' :: commaRev (d :: rest)
  | l => l

/-- Rendering of `n` with `,` thousands grouping (Python grouping format on a
non-negative integer part). -/
def natGrouped (n : ℕ) : String :=
  String.mk (commaRev (Nat.toDigits 10 n).reverse).reverse

/-- Two-digit rendering of a cents value `n < 100`. -/
def twoDigits (n : ℕ) : String :=
  if n < 10 then "0" ++ toString n else toString n

/-- Python `f"{v:,.2f}"` on a finite `Decimal`: round to cents
(half-even, per the decimal context), keep the sign (Decimal preserves
a negative sign even when the rounded magnitude is zero), group the
integer part by thousands, always two fraction digits. -/
def format_comma_2f (q : ℚ) : String :=
  let cents : ℤ := roundHalfEven (q * 100)
  let sign : String := if cents < 0 ∨ (cents = 0 ∧ q < 0) then "-" else ""
  sign ++ natGrouped (cents.natAbs / 100) ++ "." ++ twoDigits (cents.natAbs % 100)

/-- Python `f"{v:.2f}"` on a finite `Decimal`: as above but without
thousands grouping. -/
def format_2f (q : ℚ) : String :=
  let cents : ℤ := roundHalfEven (q * 100)
  let sign : String := if cents < 0 ∨ (cents = 0 ∧ q < 0) then "-" else ""
  sign ++ toString (cents.natAbs / 100) ++ "." ++ twoDigits (cents.natAbs % 100)

/-- Embedding of `DashboardWidget._format_decimal_for_display`.  The
input is already a `Decimal` or `None` in every call site, so the
`Decimal(str(value))` coercion and its exception arm never fire. -/
def format_decimal_for_display (value : Option PyDecimal)
    (currency_symbol : String) : String :=
  match value with
  | none => "N/A"
  | some v =>
    let pfx : String := if currency_symbol ≠ "" then currency_symbol ++ " " else ""
    match v with
    | .fin q => pfx ++ format_comma_2f q
    | _ => "N/A (Infinite)"

/-- Embedding of `DashboardWidget._format_ratio_for_display`. -/
def format_ratio_for_display (value : Option PyDecimal) : String :=
  match value with
  | none => "N/A"
  | some (.fin q) => format_2f q ++ " : 1"
  | some _ => "N/A (Infinite)"

theorem quantize2_zero : quantize2 0 = 0 := by
  norm_num [quantize2, roundHalfEven]

theorem spin_nonzero_gt_millis (v : ℚ) (h : SpinRepresentable v) (hv : v ≠ 0) :
    v > 1/1000 := by
  obtain ⟨hnn, n, rfl⟩ := h
  have hn : n ≠ 0 := by
    rintro rfl
    simp at hv
  have h1 : (1 : ℚ) ≤ (n : ℚ) := by
    exact_mod_cast Nat.one_le_iff_ne_zero.mpr hn
  have : (1 : ℚ) / 100 ≤ (n : ℚ) / 100 := by linarith
  linarith

/-- C2: for every line, the recomputed tax amount equals
`base_amount × (rate / 100)` quantized to 2 decimal places, where
`base_amount` is the debit amount if it is non-zero and otherwise the
credit amount; the product is applied only when the selected tax
code's type is "GST" with a non-null rate, and in every other case
(no tax code selected, code not found percentage-typed, or a null
rate) the recomputed tax amount is 0. -/
theorem c2_tax_recalculation :
    (∀ (d c r : ℚ) (code : String) (cache : List TaxCode), 0 ≤ d →
      cache.find? (fun tc => tc.code == code) = some ⟨code, some r, "GST"⟩ →
      recalculate_tax_for_line d c (some code) cache
        = quantize2 ((if d ≠ 0 then d else c) * (r / 100)))
    ∧ (∀ (d c : ℚ) (cache : List TaxCode),
        recalculate_tax_for_line d c none cache = 0)
    ∧ (∀ (d c : ℚ) (code : String) (cache : List TaxCode) (tc : TaxCode),
        cache.find? (fun tc0 => tc0.code == code) = some tc →
        tc.tax_type ≠ "GST" ∨ tc.rate = none →
        recalculate_tax_for_line d c (some code) cache = 0) := by
  refine ⟨?_, ?_, ?_⟩
  · intro d c r code cache hd hfind
    by_cases hdpos : d > 0
    · have hbase : (if d > 0 then d else c) = d := if_pos hdpos
      have hdne : d ≠ 0 := ne_of_gt hdpos
      simp only [recalculate_tax_for_line, hbase, hfind, hdne, if_true]
      by_cases hz : d = 0
      · exact absurd hz hdne
      · simp [hz]
    · have hd0 : d = 0 := le_antisymm (not_lt.mp hdpos) hd
      subst hd0
      simp only [recalculate_tax_for_line, hfind]
      by_cases hc : c = 0
      · subst hc
        simp [quantize2_zero]
      · simp [hc]
  · intro d c cache
    simp [recalculate_tax_for_line]
  · intro d c code cache tc hfind hbad
    simp only [recalculate_tax_for_line, hfind]
    by_cases hb : (if d > 0 then d else c) = 0
    · simp [hb]
    · rcases hbad with hty | hr
      · simp [hb, hty]
      · by_cases hty : tc.tax_type = "GST"
        · simp [hb, hty, hr]
        · simp [hb, hty]

theorem c2_tax_recalculation_witness :
    recalculate_tax_for_line 1000 0 (some "SR") [⟨"SR", some 7, "GST"⟩] = 70 := by
  have h := c2_tax_recalculation.1 1000 0 7 "SR" [⟨"SR", some 7, "GST"⟩]
    (by norm_num) (by rfl)
  rw [h]
  norm_num [quantize2, roundHalfEven]

/-- C4: `_calculate_totals` reports "Balance: OK" iff
`|Σdebit − Σcredit| < 0.005`, and otherwise reports the signed
difference `Σdebit − Σcredit`; the debit/credit labels always carry
the exact totals. -/
theorem c4_totals_balance (rows : List LineRow) :
    ((calculate_totals rows).balance = BalanceLabel.ok ↔
      |rowsDebitTotal rows - rowsCreditTotal rows| < 5/1000)
    ∧ (¬ |rowsDebitTotal rows - rowsCreditTotal rows| < 5/1000 →
        (calculate_totals rows).balance
          = BalanceLabel.diff (rowsDebitTotal rows - rowsCreditTotal rows))
    ∧ (calculate_totals rows).debits = rowsDebitTotal rows
    ∧ (calculate_totals rows).credits = rowsCreditTotal rows := by
  unfold calculate_totals
  by_cases h : |rowsDebitTotal rows - rowsCreditTotal rows| < 5/1000 <;>
    simp [h]

theorem c4_totals_balance_witness :
    (calculate_totals [⟨some 1, "", 100, 0, none, 0⟩,
                       ⟨some 2, "", 0, 90, none, 0⟩]).balance
      = BalanceLabel.diff 10 := by
  have h := (c4_totals_balance [⟨some 1, "", 100, 0, none, 0⟩,
      ⟨some 2, "", 0, 90, none, 0⟩]).2.1
  have hne : ¬ |rowsDebitTotal [⟨some 1, "", 100, 0, none, 0⟩,
      ⟨some 2, "", 0, 90, none, 0⟩]
      - rowsCreditTotal [⟨some 1, "", 100, 0, none, 0⟩,
      ⟨some 2, "", 0, 90, none, 0⟩]| < 5/1000 := by
    norm_num [rowsDebitTotal, rowsCreditTotal]
  have := h hne
  rw [this]
  norm_num [rowsDebitTotal, rowsCreditTotal]

theorem set_debit_zeroes_credit (l : LineAmounts) (v : ℚ) (h : v > 1/1000) :
    (set_debit l v).credit = 0 := by
  show (if v > 1/1000 then (0 : ℚ) else l.credit) = 0
  rw [if_pos h]

theorem set_credit_zeroes_debit (l : LineAmounts) (v : ℚ) (h : v > 1/1000) :
    (set_credit l v).debit = 0 := by
  show (if v > 1/1000 then (0 : ℚ) else l.debit) = 0
  rw [if_pos h]

/-- C5: setting a non-zero (spin-representable) debit forces the
line's credit to zero and vice versa, and every edit preserves the
invariant that at most one of debit/credit is non-zero. -/
theorem c5_debit_credit_exclusive :
    (∀ (l : LineAmounts) (v : ℚ), SpinRepresentable v → v ≠ 0 →
      (set_debit l v).debit = v ∧ (set_debit l v).credit = 0)
    ∧ (∀ (l : LineAmounts) (v : ℚ), SpinRepresentable v → v ≠ 0 →
      (set_credit l v).credit = v ∧ (set_credit l v).debit = 0)
    ∧ (∀ (l : LineAmounts) (v : ℚ), SpinRepresentable v → atMostOneNonzero l →
      atMostOneNonzero (set_debit l v) ∧ atMostOneNonzero (set_credit l v)) := by
  refine ⟨?_, ?_, ?_⟩
  · intro l v hrep hv
    exact ⟨rfl, set_debit_zeroes_credit l v (spin_nonzero_gt_millis v hrep hv)⟩
  · intro l v hrep hv
    exact ⟨rfl, set_credit_zeroes_debit l v (spin_nonzero_gt_millis v hrep hv)⟩
  · intro l v hrep _hinv
    constructor
    · by_cases hv : v = 0
      · subst hv
        left
        rfl
      · right
        exact set_debit_zeroes_credit l v (spin_nonzero_gt_millis v hrep hv)
    · by_cases hv : v = 0
      · subst hv
        right
        rfl
      · left
        exact set_credit_zeroes_debit l v (spin_nonzero_gt_millis v hrep hv)

theorem c5_debit_credit_exclusive_witness :
    (set_debit ⟨0, 5⟩ (1/2)).credit = 0
    ∧ atMostOneNonzero (set_credit ⟨0, 5⟩ (1/2)) := by
  have hrep : SpinRepresentable (1/2 : ℚ) := ⟨by norm_num, 50, by norm_num⟩
  refine ⟨(c5_debit_credit_exclusive.1 ⟨0, 5⟩ (1/2) hrep (by norm_num)).2, ?_⟩
  exact (c5_debit_credit_exclusive.2.2 ⟨0, 5⟩ (1/2) hrep (Or.inl rfl)).2

/-- C6: the listing widget never submits a non-Draft entry for posting
and never submits a non-Posted entry for reversal: edit is enabled
only for a single selected Draft row, every id collected by the post
action comes from a selected row whose status is Draft, and reversal
proceeds only for a single selected row whose status is Posted. -/
theorem c6_lifecycle_gating (sel : List EntryRow) :
    ((update_action_states sel).edit_enabled = true →
      ∃ r, sel = [r] ∧ r.status = some "Draft")
    ∧ (∀ ids, on_post_entry sel = some ids →
        ∀ i ∈ ids, ∃ r ∈ sel, r.id = some i ∧ r.status = some "Draft")
    ∧ (∀ i, on_reverse_entry sel = some i →
        ∃ r, sel = [r] ∧ r.id = some i ∧ r.status = some "Posted") := by
  refine ⟨?_, ?_, ?_⟩
  · intro h
    match sel with
    | [] => simp [update_action_states] at h
    | [r] =>
      refine ⟨r, rfl, ?_⟩
      simp only [update_action_states] at h
      simpa using h
    | r1 :: r2 :: rest => simp [update_action_states] at h
  · intro ids h i hi
    simp only [on_post_entry] at h
    by_cases hemp : sel.isEmpty
    · simp [hemp] at h
    · rw [if_neg hemp] at h
      set ids0 := sel.filterMap (fun r =>
        if r.id ≠ none ∧ r.id ≠ some 0 ∧ r.status = some "Draft" then r.id
        else none) with hids0
      by_cases hz : ids0.isEmpty
      · simp [hz] at h
      · rw [if_neg hz] at h
        have hmem : i ∈ ids0 := by
          rw [Option.some_inj] at h
          rw [h]
          exact hi
        rw [hids0, List.mem_filterMap] at hmem
        obtain ⟨r, hr, hfr⟩ := hmem
        refine ⟨r, hr, ?_⟩
        by_cases hcond : r.id ≠ none ∧ r.id ≠ some 0 ∧ r.status = some "Draft"
        · rw [if_pos hcond] at hfr
          exact ⟨hfr, hcond.2.2⟩
        · rw [if_neg hcond] at hfr
          simp at hfr
  · intro i h
    match sel with
    | [] => simp [on_reverse_entry, get_selected_entry_id_and_status] at h
    | [r] =>
      refine ⟨r, rfl, ?_⟩
      simp only [on_reverse_entry, get_selected_entry_id_and_status] at h
      by_cases hc : r.id = none ∨ r.status ≠ some "Posted"
      · rw [if_pos hc] at h
        simp at h
      · rw [if_neg hc] at h
        push_neg at hc
        exact ⟨h, hc.2⟩
    | r1 :: r2 :: rest =>
      simp [on_reverse_entry, get_selected_entry_id_and_status] at h

theorem c6_lifecycle_gating_witness :
    ∃ r ∈ [EntryRow.mk (some 3) (some "Draft"), EntryRow.mk (some 4) (some "Posted")],
      r.id = some 3 ∧ r.status = some "Draft" := by
  have h := (c6_lifecycle_gating
    [EntryRow.mk (some 3) (some "Draft"), EntryRow.mk (some 4) (some "Posted")]).2.1
  exact h [3] (by rfl) 3 (by simp)

/-- C7: `AccountTypeService.delete(id)` returns `True` and removes the
stored record when a record with that id exists, and returns `False`
leaving the store untouched when it does not.  (The service itself is
modelled from the spec; its implementation file is not in the corpus.) -/
theorem c7_delete_account_type (store : List AccountType) (i : ℤ) :
    ((∃ a ∈ store, a.id = i) →
      (AccountTypeService.delete store i).1 = true
      ∧ (AccountTypeService.delete store i).2
          = store.eraseP (fun a => a.id == i)
      ∧ (AccountTypeService.delete store i).2.length + 1 = store.length)
    ∧ ((∀ a ∈ store, a.id ≠ i) →
      (AccountTypeService.delete store i).1 = false
      ∧ (AccountTypeService.delete store i).2 = store) := by
  constructor
  · intro hex
    obtain ⟨a, ha, hai⟩ := hex
    have hsome : (store.find? (fun a => a.id == i)).isSome = true := by
      rw [List.find?_isSome]
      exact ⟨a, ha, by simp [hai]⟩
    rcases hf : store.find? (fun a => a.id == i) with _ | rec
    · rw [hf] at hsome
      simp at hsome
    · refine ⟨?_, ?_, ?_⟩
      · simp [AccountTypeService.delete, AccountTypeService.get_by_id, hf]
      · simp [AccountTypeService.delete, AccountTypeService.get_by_id, hf]
      · have hlength := List.length_eraseP_add_one ha (p := fun a => a.id == i)
          (by simp [hai])
        simpa [AccountTypeService.delete, AccountTypeService.get_by_id, hf]
          using hlength
  · intro hnone
    have hf : store.find? (fun a => a.id == i) = none := by
      rw [List.find?_eq_none]
      intro a ha
      simpa using hnone a ha
    constructor
    · simp [AccountTypeService.delete, AccountTypeService.get_by_id, hf]
    · simp [AccountTypeService.delete, AccountTypeService.get_by_id, hf]

theorem c7_delete_account_type_witness :
    (AccountTypeService.delete [AccountType.mk 1 "To Delete" "Expense" true "PL" 100] 1).1 = true
    ∧ (AccountTypeService.delete [AccountType.mk 1 "To Delete" "Expense" true "PL" 100] 1).2.length + 1 = 1 := by
  have h := (c7_delete_account_type
    [AccountType.mk 1 "To Delete" "Expense" true "PL" 100] 1).1
    ⟨AccountType.mk 1 "To Delete" "Expense" true "PL" 100, by simp, rfl⟩
  exact ⟨h.1, by simpa using h.2.2⟩

theorem post_loop_spec (post : ℤ → Bool) (errMsg : ℤ → String) :
    ∀ ids : List ℤ,
      post_loop post errMsg ids
        = ((ids.filter (fun i => post i)).length,
           (ids.filter (fun i => !post i)).map errMsg) := by
  intro ids
  induction ids with
  | nil => rfl
  | cons i rest ih =>
    by_cases hp : post i
    · simp [post_loop, ih, hp, List.filter_cons]
    · simp only [Bool.not_eq_true] at hp
      simp [post_loop, ih, hp, List.filter_cons]

/-- C8: the completion report of a posting batch states the success
count out of the total number of entries submitted, carries exactly
one error line per failed entry, and the result dialog is the
information (success) variant only when every submitted entry posted
without error. -/
theorem c8_post_batch_report (post : ℤ → Bool) (errMsg : ℤ → String)
    (entry_ids : List ℤ) :
    (perform_post_entries post errMsg entry_ids).total = entry_ids.length
    ∧ (perform_post_entries post errMsg entry_ids).success_count
        = (entry_ids.filter (fun i => post i)).length
    ∧ (perform_post_entries post errMsg entry_ids).error_lines
        = (entry_ids.filter (fun i => !post i)).map errMsg
    ∧ ((perform_post_entries post errMsg entry_ids).is_success_dialog = true →
        ∀ i ∈ entry_ids, post i = true) := by
  have hloop := post_loop_spec post errMsg entry_ids
  refine ⟨rfl, ?_, ?_, ?_⟩
  · simp [perform_post_entries, hloop]
  · simp [perform_post_entries, hloop]
  · intro hdlg i hi
    simp only [perform_post_entries, hloop] at hdlg
    have hnil : (entry_ids.filter (fun i => !post i)).map errMsg = [] := by
      rcases Bool.and_eq_true _ _ |>.mp hdlg with ⟨h1, _⟩
      exact List.isEmpty_iff.mp h1
    rw [List.map_eq_nil_iff] at hnil
    have := List.filter_eq_nil_iff.mp hnil i hi
    simpa using this

theorem c8_post_batch_report_witness :
    ∀ i ∈ ([1, 2] : List ℤ), (fun j => decide (j < 5)) i = true := by
  refine (c8_post_batch_report (fun j => decide (j < 5)) (fun _ => "err") [1, 2]).2.2.2 ?_
  rfl

/-- C9 counterexample: on a non-finite value the display formatter
returns "N/A (Infinite)", which is not the string "N/A" the claim
promises. -/
theorem c9_formatters_counterexample :
    format_decimal_for_display (some (PyDecimal.inf false)) ""
      = "N/A (Infinite)"
    ∧ ("N/A (Infinite)" : String) ≠ "N/A" := by
  exact ⟨rfl, by decide⟩

/-- C9 (amended): the display formatter returns "N/A" when the value
is null and "N/A (Infinite)" when it is non-finite (infinity or NaN),
and otherwise a currency-formatted decimal with 2 decimal places (the
currency symbol prefixed when non-empty); the ratio formatter returns
"N/A" for null, "N/A (Infinite)" for non-finite, and "X.XX : 1" for
finite ratios. -/
theorem c9_formatters_amended :
    (∀ sym, format_decimal_for_display none sym = "N/A")
    ∧ (∀ sym b, format_decimal_for_display (some (PyDecimal.inf b)) sym
        = "N/A (Infinite)")
    ∧ (∀ sym, format_decimal_for_display (some PyDecimal.nan) sym
        = "N/A (Infinite)")
    ∧ (∀ sym q, format_decimal_for_display (some (PyDecimal.fin q)) sym
        = (if sym ≠ "" then sym ++ " " else "") ++ format_comma_2f q)
    ∧ format_decimal_for_display (some (PyDecimal.fin (24695/20))) "SGD"
        = "SGD 1,234.75"
    ∧ format_ratio_for_display none = "N/A"
    ∧ (∀ b, format_ratio_for_display (some (PyDecimal.inf b)) = "N/A (Infinite)")
    ∧ (∀ q, format_ratio_for_display (some (PyDecimal.fin q))
        = format_2f q ++ " : 1")
    ∧ format_ratio_for_display (some (PyDecimal.fin (9/5))) = "1.80 : 1" := by
  refine ⟨fun sym => rfl, fun sym b => rfl, fun sym => rfl, fun sym q => rfl,
    ?_, rfl, fun b => rfl, fun q => rfl, ?_⟩
  · have hc : roundHalfEven ((24695/20 : ℚ) * 100) = 123475 := by
      norm_num [roundHalfEven]
    simp only [format_decimal_for_display, format_comma_2f, hc]
    norm_num
    decide
  · have hc : roundHalfEven ((9/5 : ℚ) * 100) = 180 := by
      norm_num [roundHalfEven]
    simp only [format_ratio_for_display, format_2f, hc]
    norm_num
    decide

theorem collect_lines_totals :
    ∀ (rows : List LineRow) (p : List JournalEntryLineData × ℚ × ℚ),
      collect_lines rows = some p →
      p.2.1 = rowsDebitTotal rows ∧ p.2.2 = rowsCreditTotal rows := by
  intro rows
  induction rows with
  | nil =>
    intro p h
    simp only [collect_lines, Option.some_inj] at h
    rw [← h]
    constructor <;> rfl
  | cons r rest ih =>
    intro p h
    rcases hacc : r.accountId with _ | acc
    · simp only [collect_lines, hacc] at h
      by_cases hz : r.debit = 0 ∧ r.credit = 0
      · rw [if_pos hz] at h
        obtain ⟨h1, h2⟩ := ih p h
        constructor
        · rw [h1]
          simp [rowsDebitTotal, hz.1]
        · rw [h2]
          simp [rowsCreditTotal, hz.2]
      · rw [if_neg hz] at h
        exact absurd h (by simp)
    · simp only [collect_lines, hacc] at h
      rcases hrest : collect_lines rest with _ | q
      · rw [hrest] at h
        exact absurd h (by simp)
      · rw [hrest, Option.some_inj] at h
        obtain ⟨h1, h2⟩ := ih q hrest
        rw [← h]
        constructor
        · simp [rowsDebitTotal, h1]
        · simp [rowsCreditTotal, h2]

theorem collect_lines_dto_sums :
    ∀ (rows : List LineRow) (p : List JournalEntryLineData × ℚ × ℚ),
      collect_lines rows = some p →
      sum_debits p.1 = p.2.1 ∧ sum_credits p.1 = p.2.2 := by
  intro rows
  induction rows with
  | nil =>
    intro p h
    simp only [collect_lines, Option.some_inj] at h
    rw [← h]
    constructor <;> rfl
  | cons r rest ih =>
    intro p h
    rcases hacc : r.accountId with _ | acc
    · simp only [collect_lines, hacc] at h
      by_cases hz : r.debit = 0 ∧ r.credit = 0
      · rw [if_pos hz] at h
        exact ih p h
      · rw [if_neg hz] at h
        exact absurd h (by simp)
    · simp only [collect_lines, hacc] at h
      rcases hrest : collect_lines rest with _ | q
      · rw [hrest] at h
        exact absurd h (by simp)
      · rw [hrest, Option.some_inj] at h
        obtain ⟨h1, h2⟩ := ih q hrest
        rw [← h]
        constructor
        · simp only [sum_debits, line_dto, List.map_cons, List.sum_cons]
          exact congrArg (r.debit + ·) h1
        · simp only [sum_credits, line_dto, List.map_cons, List.sum_cons]
          exact congrArg (r.credit + ·) h2

theorem collect_lines_mem :
    ∀ (rows : List LineRow) (p : List JournalEntryLineData × ℚ × ℚ),
      collect_lines rows = some p →
      ∀ l ∈ p.1, ∃ r ∈ rows, ∃ a, r.accountId = some a ∧ l = line_dto r a := by
  intro rows
  induction rows with
  | nil =>
    intro p h l hl
    simp only [collect_lines, Option.some_inj] at h
    rw [← h] at hl
    simp at hl
  | cons r rest ih =>
    intro p h l hl
    rcases hacc : r.accountId with _ | acc
    · simp only [collect_lines, hacc] at h
      by_cases hz : r.debit = 0 ∧ r.credit = 0
      · rw [if_pos hz] at h
        obtain ⟨r0, hr0, a, ha, hla⟩ := ih p h l hl
        exact ⟨r0, List.mem_cons_of_mem r hr0, a, ha, hla⟩
      · rw [if_neg hz] at h
        exact absurd h (by simp)
    · simp only [collect_lines, hacc] at h
      rcases hrest : collect_lines rest with _ | q
      · rw [hrest] at h
        exact absurd h (by simp)
      · rw [hrest, Option.some_inj] at h
        rw [← h] at hl
        rcases List.mem_cons.mp hl with hhead | htail
        · exact ⟨r, List.mem_cons_self r rest, acc, hacc, hhead⟩
        · obtain ⟨r0, hr0, a, ha, hla⟩ := ih q hrest l htail
          exact ⟨r0, List.mem_cons_of_mem r hr0, a, ha, hla⟩

theorem collect_lines_nonzero :
    ∀ (rows : List LineRow) (p : List JournalEntryLineData × ℚ × ℚ),
      collect_lines rows = some p →
      (∃ r ∈ rows, r.accountId ≠ none ∧ (r.debit ≠ 0 ∨ r.credit ≠ 0)) →
      ∃ l ∈ p.1, l.debit_amount ≠ 0 ∨ l.credit_amount ≠ 0 := by
  intro rows
  induction rows with
  | nil =>
    intro p _ hex
    simp at hex
  | cons r rest ih =>
    intro p h hex
    rcases hacc : r.accountId with _ | acc
    · simp only [collect_lines, hacc] at h
      by_cases hz : r.debit = 0 ∧ r.credit = 0
      · rw [if_pos hz] at h
        obtain ⟨r0, hr0, hne, hnz⟩ := hex
        rcases List.mem_cons.mp hr0 with rfl | htail
        · exact absurd hacc hne
        · exact ih p h ⟨r0, htail, hne, hnz⟩
      · rw [if_neg hz] at h
        exact absurd h (by simp)
    · simp only [collect_lines, hacc] at h
      rcases hrest : collect_lines rest with _ | q
      · rw [hrest] at h
        exact absurd h (by simp)
      · rw [hrest, Option.some_inj] at h
        obtain ⟨r0, hr0, hne, hnz⟩ := hex
        rcases List.mem_cons.mp hr0 with rfl | htail
        · refine ⟨line_dto r0 acc, ?_, ?_⟩
          · rw [← h]
            exact List.mem_cons_self _ _
          · simpa [line_dto] using hnz
        · obtain ⟨l, hl, hlnz⟩ := ih q hrest ⟨r0, htail, hne, hnz⟩
          refine ⟨l, ?_, hlnz⟩
          rw [← h]
          exact List.mem_cons_of_mem _ hl

theorem collect_lines_isSome :
    ∀ rows : List LineRow,
      (∀ r ∈ rows, r.accountId ≠ none ∨ (r.debit = 0 ∧ r.credit = 0)) →
      (collect_lines rows).isSome = true := by
  intro rows
  induction rows with
  | nil => intro _; rfl
  | cons r rest ih =>
    intro hclean
    have hr := hclean r (List.mem_cons_self r rest)
    have hrest := ih (fun r0 hr0 => hclean r0 (List.mem_cons_of_mem r hr0))
    rcases hacc : r.accountId with _ | acc
    · rcases hr with hne | hz
      · exact absurd hacc hne
      · simp only [collect_lines, hacc, if_pos hz]
        exact hrest
    · simp only [collect_lines, hacc]
      rcases hcl : collect_lines rest with _ | q
      · rw [hcl] at hrest
        simp at hrest
      · simp

/-- C1 (amended): for every collection of line rows, when the absolute
difference between the sum of debit amounts and the sum of credit
amounts exceeds 0.01, `_collect_data` returns no entry and no manager
call is made; when the difference is within 0.01, every row either has
a selected account or carries no amounts, and at least one row has a
selected account and a non-zero amount, an entry is produced and
submitted. -/
theorem c1_balance_gate (hd : EntryHeader) (rows : List LineRow) :
    (|rowsDebitTotal rows - rowsCreditTotal rows| > 1/100 →
      collect_data hd rows = none ∧ on_save_draft hd rows = none)
    ∧ ((∀ r ∈ rows, r.accountId ≠ none ∨ (r.debit = 0 ∧ r.credit = 0)) →
       |rowsDebitTotal rows - rowsCreditTotal rows| ≤ 1/100 →
       (∃ r ∈ rows, r.accountId ≠ none ∧ (r.debit ≠ 0 ∨ r.credit ≠ 0)) →
       (collect_data hd rows).isSome = true
         ∧ (on_save_draft hd rows).isSome = true) := by
  constructor
  · intro hgt
    rcases hcl : collect_lines rows with _ | p
    · exact ⟨by simp [collect_data, hcl], by simp [on_save_draft, collect_data, hcl]⟩
    · obtain ⟨ls, td, tc⟩ := p
      have ht := collect_lines_totals rows (ls, td, tc) hcl
      have ht1 : td = rowsDebitTotal rows := ht.1
      have ht2 : tc = rowsCreditTotal rows := ht.2
      have hgt2 : |td - tc| > 1/100 := by
        rw [ht1, ht2]
        exact hgt
      have hnone : collect_data hd rows = none := by
        simp only [collect_data, hcl]
        by_cases he : ls.isEmpty
        · rw [if_pos he]
        · rw [if_neg he, if_pos hgt2]
      exact ⟨hnone, by simp [on_save_draft, hnone]⟩
  · intro hclean hle hex
    have hs := collect_lines_isSome rows hclean
    rcases hcl : collect_lines rows with _ | p
    · rw [hcl] at hs
      simp at hs
    · obtain ⟨ls, td, tc⟩ := p
      have ht := collect_lines_totals rows (ls, td, tc) hcl
      have ht1 : td = rowsDebitTotal rows := ht.1
      have ht2 : tc = rowsCreditTotal rows := ht.2
      have hsums := collect_lines_dto_sums rows (ls, td, tc) hcl
      have hs1 : sum_debits ls = td := hsums.1
      have hs2 : sum_credits ls = tc := hsums.2
      obtain ⟨l, hl, hlnz⟩ := collect_lines_nonzero rows (ls, td, tc) hcl hex
      have hlsne : ls ≠ [] := List.ne_nil_of_mem hl
      have hemp : ls.isEmpty = false := by
        simpa [List.isEmpty_iff] using hlsne
      have hle2 : ¬ |td - tc| > 1/100 := by
        rw [ht1, ht2]
        exact not_lt.mpr hle
      have hok : journal_entry_data_ok ls = true := by
        unfold journal_entry_data_ok
        have hbal : |sum_debits ls - sum_credits ls| ≤ (1/100 : ℚ) := by
          rw [hs1, hs2, ht1, ht2]
          exact hle
        rw [if_pos hbal]
        simp only [Bool.true_and]
        rw [List.any_eq_true]
        refine ⟨l, hl, ?_⟩
        simpa [bne_iff_ne] using hlnz
      have hsome : (collect_data hd rows).isSome = true := by
        simp only [collect_data, hcl]
        rw [if_neg (by simp [hemp]), if_neg hle2, if_pos (by simp [hok])]
        rfl
      obtain ⟨v, hv⟩ := Option.isSome_iff_exists.mp hsome
      exact ⟨hsome, by simp [on_save_draft, hv]⟩

theorem c1_balance_gate_witness :
    (collect_data ⟨"General", 0, none, none, 1, none, none⟩
      [⟨some 1, "", 100, 0, none, 0⟩, ⟨some 2, "", 0, 100, none, 0⟩]).isSome = true := by
  refine ((c1_balance_gate ⟨"General", 0, none, none, 1, none, none⟩
    [⟨some 1, "", 100, 0, none, 0⟩, ⟨some 2, "", 0, 100, none, 0⟩]).2 ?_ ?_ ?_).1
  · intro r hr
    fin_cases hr <;> simp
  · norm_num [rowsDebitTotal, rowsCreditTotal]
  · refine ⟨⟨some 1, "", 100, 0, none, 0⟩, by simp, by simp, Or.inl (by norm_num)⟩

/-- C1 counterexample: a collection of rows whose debit and credit
sums agree exactly and which contains a valid line, yet
`_collect_data` returns no entry (and so nothing is submitted),
because one row carries amounts without a selected account.  This
refutes the claim's second half as stated. -/
theorem c1_balance_gate_counterexample :
    |rowsDebitTotal [⟨none, "", 100, 0, none, 0⟩, ⟨none, "", 0, 100, none, 0⟩,
        ⟨some 1, "", 50, 0, none, 0⟩, ⟨some 2, "", 0, 50, none, 0⟩]
      - rowsCreditTotal [⟨none, "", 100, 0, none, 0⟩, ⟨none, "", 0, 100, none, 0⟩,
        ⟨some 1, "", 50, 0, none, 0⟩, ⟨some 2, "", 0, 50, none, 0⟩]| ≤ 1/100
    ∧ (∃ r ∈ ([⟨none, "", 100, 0, none, 0⟩, ⟨none, "", 0, 100, none, 0⟩,
        ⟨some 1, "", 50, 0, none, 0⟩, ⟨some 2, "", 0, 50, none, 0⟩] : List LineRow),
        r.accountId ≠ none ∧ (r.debit ≠ 0 ∨ r.credit ≠ 0))
    ∧ collect_data ⟨"General", 0, none, none, 1, none, none⟩
        [⟨none, "", 100, 0, none, 0⟩, ⟨none, "", 0, 100, none, 0⟩,
         ⟨some 1, "", 50, 0, none, 0⟩, ⟨some 2, "", 0, 50, none, 0⟩] = none
    ∧ on_save_draft ⟨"General", 0, none, none, 1, none, none⟩
        [⟨none, "", 100, 0, none, 0⟩, ⟨none, "", 0, 100, none, 0⟩,
         ⟨some 1, "", 50, 0, none, 0⟩, ⟨some 2, "", 0, 50, none, 0⟩] = none := by
  refine ⟨by norm_num [rowsDebitTotal, rowsCreditTotal], ?_, ?_, ?_⟩
  · exact ⟨⟨some 1, "", 50, 0, none, 0⟩, by simp, by simp, Or.inl (by norm_num)⟩
  · decide
  · decide

/-- C3: when no line carries a non-zero amount (every row's debit and
credit are both zero), `_collect_data` returns no entry and no manager
call is made. -/
theorem c3_no_nonzero_amount_rejected (hd : EntryHeader) (rows : List LineRow)
    (hall : ∀ r ∈ rows, r.debit = 0 ∧ r.credit = 0) :
    collect_data hd rows = none ∧ on_save_draft hd rows = none := by
  rcases hcl : collect_lines rows with _ | p
  · exact ⟨by simp [collect_data, hcl], by simp [on_save_draft, collect_data, hcl]⟩
  · obtain ⟨ls, td, tc⟩ := p
    have hzero : ∀ l ∈ ls, l.debit_amount = 0 ∧ l.credit_amount = 0 := by
      intro l hl
      obtain ⟨r, hr, a, ha, hla⟩ := collect_lines_mem rows (ls, td, tc) hcl l hl
      rw [hla]
      exact ⟨(hall r hr).1, (hall r hr).2⟩
    have hany : ls.any (fun l => l.debit_amount != 0 || l.credit_amount != 0)
        = false := by
      rw [List.any_eq_false]
      intro l hl
      simp [(hzero l hl).1, (hzero l hl).2]
    have hok : journal_entry_data_ok ls = false := by
      unfold journal_entry_data_ok
      rw [hany, Bool.and_false]
    have hnone : collect_data hd rows = none := by
      simp only [collect_data, hcl]
      by_cases he : ls.isEmpty
      · rw [if_pos he]
      · rw [if_neg he]
        by_cases hgt : |td - tc| > 1/100
        · rw [if_pos hgt]
        · rw [if_neg hgt, if_neg (by simp [hok])]
    exact ⟨hnone, by simp [on_save_draft, hnone]⟩

theorem c3_no_nonzero_amount_rejected_witness :
    collect_data ⟨"General", 0, none, none, 1, none, none⟩
      [⟨some 1, "", 0, 0, none, 0⟩, ⟨some 2, "", 0, 0, none, 0⟩] = none
    ∧ on_save_draft ⟨"General", 0, none, none, 1, none, none⟩
      [⟨some 1, "", 0, 0, none, 0⟩, ⟨some 2, "", 0, 0, none, 0⟩] = none := by
  refine c3_no_nonzero_amount_rejected _ _ ?_
  intro r hr
  fin_cases hr <;> exact ⟨rfl, rfl⟩

theorem collect_lines_skip_blank (l1 l2 : List LineRow) (r : LineRow)
    (hacc : r.accountId = none) (hd0 : r.debit = 0) (hc0 : r.credit = 0) :
    collect_lines (l1 ++ r :: l2) = collect_lines (l1 ++ l2) := by
  induction l1 with
  | nil =>
    simp only [List.nil_append]
    simp [collect_lines, hacc, hd0, hc0]
  | cons x l1 ih =>
    simp only [List.cons_append, collect_lines, List.append_eq]
    rw [ih]

/-- C10: a row whose account combo has no selected account and whose
debit and credit amounts are both zero is silently skipped by
`_collect_data`: the row loop, the collected lines, the accumulated
totals and the final result are identical with and without it, so its
presence alone never causes a validation error. -/
theorem c10_blank_row_skipped (hd : EntryHeader) (l1 l2 : List LineRow)
    (r : LineRow) (hacc : r.accountId = none) (hd0 : r.debit = 0)
    (hc0 : r.credit = 0) :
    collect_lines (l1 ++ r :: l2) = collect_lines (l1 ++ l2)
    ∧ collect_data hd (l1 ++ r :: l2) = collect_data hd (l1 ++ l2) := by
  have hskip := collect_lines_skip_blank l1 l2 r hacc hd0 hc0
  refine ⟨hskip, ?_⟩
  unfold collect_data
  rw [hskip]

theorem c10_blank_row_skipped_witness :
    collect_data ⟨"General", 0, none, none, 1, none, none⟩
      [⟨some 1, "", 100, 0, none, 0⟩, ⟨none, "note", 0, 0, none, 0⟩,
       ⟨some 2, "", 0, 100, none, 0⟩]
    = collect_data ⟨"General", 0, none, none, 1, none, none⟩
      [⟨some 1, "", 100, 0, none, 0⟩, ⟨some 2, "", 0, 100, none, 0⟩] := by
  exact (c10_blank_row_skipped ⟨"General", 0, none, none, 1, none, none⟩
    [⟨some 1, "", 100, 0, none, 0⟩] [⟨some 2, "", 0, 100, none, 0⟩]
    ⟨none, "note", 0, 0, none, 0⟩ rfl rfl rfl).2
